import Mathlib

/-!
Verification development for the Structured Data repository
(src/structured_data.rs, src/main.rs).

The repository's source files declare the data model (`Data`,
`FixedAttributes`, `KeyAndWeight`, `MutableAttributes`, `Version`) together
with documentation of the rules the network must enforce; the operations
themselves (policy construction, the authorization evaluator, ledger append
with retention, and the mutation pipeline) are described in the accompanying
specification but are not implemented under src/.  The data types below are
shallow embeddings of the Rust structs; the operations are modelled from the
specification, each marked `Modelled from the spec:` in its doc comment.

Machine integers (`u64`, `u8`) are embedded as `Nat`; the well-formedness
predicate `FixedAttributes.WF` records the width bounds explicitly where a
claim depends on them.  Opaque byte buffers (`Vec<u8>`, `NameType`,
signatures, public keys) are embedded as `List Nat` / `Nat`; the external
cryptographic verifier and the serializer are injected as function
parameters, exactly as the specification treats them as collaborators.
-/

namespace StructuredData

/-- From src/structured_data.rs (`Version`): a single version, with a
sequential `index` providing strict total order and arbitrary per-version
`data`. -/
structure Version where
  index : Nat
  data : List Nat
deriving DecidableEq, Repr

/-- From src/structured_data.rs (`FixedAttributes`): attributes which can
never change once set.  `max_versions : u64` is the cap on retained
versions; `min_retained_count : u8` is the number of versions to retain when
archiving (documented minimum value of 1). -/
structure FixedAttributes where
  type_tag : Nat
  id : List Nat
  max_versions : Nat
  min_retained_count : Nat
  data : List Nat
deriving DecidableEq, Repr

/-- Width bounds of the Rust field types of `FixedAttributes`:
`type_tag` and `max_versions` are `u64`, `min_retained_count` is `u8`,
and `id` is a 64-byte `NameType`. -/
def FixedAttributes.WF (f : FixedAttributes) : Prop :=
  f.type_tag < 2 ^ 64 ∧ f.max_versions < 2 ^ 64 ∧
    f.min_retained_count < 2 ^ 8 ∧ f.id.length = 64

instance (f : FixedAttributes) : Decidable f.WF := by
  unfold FixedAttributes.WF; infer_instance

/-- From src/structured_data.rs (`KeyAndWeight`): an owner's public key and
the bias (documented minimum value of 1) given to that key when a mutating
request is received. -/
structure KeyAndWeight where
  key : Nat
  weight : Nat
deriving DecidableEq, Repr

/-- From src/structured_data.rs (`MutableAttributes`): attributes changeable
via a properly-authorised request: the owners' keys (cannot be empty), the
minimum total weight of signatories for consensus, the coarse expiry date
and arbitrary mutable data. -/
structure MutableAttributes where
  owner_keys : List KeyAndWeight
  min_weight_for_consensus : Nat
  expiry_date : Nat
  data : List Nat
deriving DecidableEq, Repr

/-- From src/structured_data.rs (`Data`): the top-level Structured Data
record, composed of the fixed attributes, the mutable attributes and the
(never empty) list of most recent versions.  No field holds signatures. -/
structure Data where
  fixed_attributes : FixedAttributes
  mutable_attributes : MutableAttributes
  versions : List Version
deriving DecidableEq, Repr

/-- The error taxonomy of the specification (section 7). -/
inductive MutationError where
  | InvalidIdentity
  | EmptyOwnerSet
  | InvalidWeight
  | DuplicateKey
  | NoSignatures
  | InsufficientWeight
  | NonSequentialIndex
  | SizeLimitExceeded
  | RecordExpired
deriving DecidableEq, Repr

/-- Whether the owner key `kw` contributed at least one entry of `evidence`
whose key matches and whose signature verifies over `candidate` under the
injected verifier.  Modelled from the spec: step 2 of the Authorization
Evaluator (src/ has no evaluator implementation). -/
def hasValidSignature (verify : Nat → List Nat → Nat → Bool) (candidate : List Nat)
    (evidence : List (Nat × Nat)) (kw : KeyAndWeight) : Bool :=
  evidence.any fun es => es.1 == kw.key && verify kw.key candidate es.2

/-- The owner keys of `policy` that contributed at least one valid signature.
Since a well-formed policy has no duplicate keys, filtering the owner list
counts each owner at most once, as the spec's step 2 requires.  Modelled
from the spec: the Authorization Evaluator is absent from src/. -/
def validSigners (verify : Nat → List Nat → Nat → Bool) (policy : MutableAttributes)
    (candidate : List Nat) (evidence : List (Nat × Nat)) : List KeyAndWeight :=
  policy.owner_keys.filter (hasValidSignature verify candidate evidence)

/-- Sum of the weights of the distinct owner keys with a valid signature
(spec step 3).  Modelled from the spec: the Authorization Evaluator is
absent from src/. -/
def countedWeight (verify : Nat → List Nat → Nat → Bool) (policy : MutableAttributes)
    (candidate : List Nat) (evidence : List (Nat × Nat)) : Nat :=
  ((validSigners verify policy candidate evidence).map KeyAndWeight.weight).sum

/-- Modelled from the spec: `authorize(policy, candidate_bytes, evidence)`
(section 4.3); src/ contains no evaluator implementation.  Rejects empty
evidence with `NoSignatures`; otherwise succeeds iff the summed weight of
distinct valid owner signers reaches `min_weight_for_consensus` and at least
one valid signature was counted, failing with `InsufficientWeight`
otherwise. -/
def authorize (verify : Nat → List Nat → Nat → Bool) (policy : MutableAttributes)
    (candidate : List Nat) (evidence : List (Nat × Nat)) : Except MutationError Unit :=
  if evidence = [] then .error .NoSignatures
  else
    if validSigners verify policy candidate evidence ≠ [] ∧
        policy.min_weight_for_consensus ≤ countedWeight verify policy candidate evidence
    then .ok () else .error .InsufficientWeight

/-- Modelled from the spec: Ownership Policy construction (section 4.2);
src/ documents the rules on `MutableAttributes` (owners cannot be empty,
weight minimum 1) but has no constructor.  Fails with `EmptyOwnerSet` if no
keys are supplied, `InvalidWeight` if any weight is 0, `DuplicateKey` if a
key appears twice. -/
def newMutableAttributes (keys : List KeyAndWeight) (minWeight : Nat)
    (expiry : Nat) (payload : List Nat) : Except MutationError MutableAttributes :=
  if keys = [] then .error .EmptyOwnerSet
  else if keys.any (fun kw => kw.weight == 0) then .error .InvalidWeight
  else if (keys.map KeyAndWeight.key).Nodup then .ok ⟨keys, minWeight, expiry, payload⟩
  else .error .DuplicateKey

/-- The index the next appended version must carry: one past the last active
index, or 0 for an empty ledger.  Modelled from the spec (section 4.4). -/
def expectedIndex (versions : List Version) : Nat :=
  match versions.getLast? with
  | some v => v.index + 1
  | none => 0

/-- Number of oldest versions evicted by retention when the ledger holds `n`
active versions: `n - max_versions` entries, clamped so that at least
`min_retained_count` remain.  Modelled from the spec (section 4.4). -/
def evictCount (fixed : FixedAttributes) (n : Nat) : Nat :=
  min (n - fixed.max_versions) (n - fixed.min_retained_count)

/-- Modelled from the spec: `append(ledger, new_version)` (section 4.4);
src/ holds only the `Version` declaration.  Fails with `NonSequentialIndex`
unless the new index is exactly one past the last active index; on success
appends and then evicts the oldest active versions per `evictCount`,
returning the remaining active ledger together with the list of evicted
versions handed to the Archive Sink (the spec's size check lives in the
pipeline, since serialization is out of scope). -/
def appendVersion (fixed : FixedAttributes) (versions : List Version) (v : Version) :
    Except MutationError (List Version × List Version) :=
  if v.index = expectedIndex versions then
    let appended := versions ++ [v]
    let e := evictCount fixed appended.length
    .ok (appended.drop e, appended.take e)
  else .error .NonSequentialIndex

/-- A candidate mutation: either a replacement set of mutable attributes
(Ownership Policy plus mutable payload) or a new version.  Modelled from the
spec (section 4.5). -/
inductive Candidate where
  | newAttributes (attrs : MutableAttributes)
  | newVersion (v : Version)
deriving DecidableEq, Repr

/-- Applies an authorized candidate to the record, producing the new record
snapshot; the resulting record must pass the injected size bound (the
spec's `SizeLimitExceeded` check, with serialization abstracted).  Modelled
from the spec (sections 4.4 and 4.5). -/
def applyCandidate (sizeOk : Data → Bool) (record : Data) (candidate : Candidate) :
    Except MutationError Data :=
  match candidate with
  | .newAttributes attrs =>
    match newMutableAttributes attrs.owner_keys attrs.min_weight_for_consensus
        attrs.expiry_date attrs.data with
    | .error e => .error e
    | .ok a =>
      let r : Data := { record with mutable_attributes := a }
      if sizeOk r then .ok r else .error .SizeLimitExceeded
  | .newVersion v =>
    match appendVersion record.fixed_attributes record.versions v with
    | .error e => .error e
    | .ok (active, _archived) =>
      let r : Data := { record with versions := active }
      if sizeOk r then .ok r else .error .SizeLimitExceeded

/-- Modelled from the spec: `propose_mutation(record, candidate, evidence,
now)` (sections 4.5 and 6); src/ has no pipeline implementation.  The expiry
check (`now` at or past `expiry_date` rejects with `RecordExpired`) runs
first, then authorization against the current policy, then the candidate is
applied. -/
def propose_mutation (verify : Nat → List Nat → Nat → Bool)
    (serialize : Candidate → List Nat) (sizeOk : Data → Bool)
    (record : Data) (candidate : Candidate) (evidence : List (Nat × Nat))
    (now : Nat) : Except MutationError Data :=
  if record.mutable_attributes.expiry_date ≤ now then .error .RecordExpired
  else
    match authorize verify record.mutable_attributes (serialize candidate) evidence with
    | .error e => .error e
    | .ok _ => applyCandidate sizeOk record candidate

/-- Modelled from the spec: the variant pipeline that runs authorization
before the expiry check, used to compare the two orders the spec declares
observably equivalent (section 4.5). -/
def propose_mutation_auth_first (verify : Nat → List Nat → Nat → Bool)
    (serialize : Candidate → List Nat) (sizeOk : Data → Bool)
    (record : Data) (candidate : Candidate) (evidence : List (Nat × Nat))
    (now : Nat) : Except MutationError Data :=
  match authorize verify record.mutable_attributes (serialize candidate) evidence with
  | .error e => .error e
  | .ok _ =>
    if record.mutable_attributes.expiry_date ≤ now then .error .RecordExpired
    else applyCandidate sizeOk record candidate

/-- The caller-side state transition: on success the new snapshot replaces
the record, on error the prior snapshot is kept unchanged.  Modelled from
the spec (sections 4.5 and 7: a rejected mutation leaves the prior Record
snapshot untouched). -/
def stepRecord (verify : Nat → List Nat → Nat → Bool)
    (serialize : Candidate → List Nat) (sizeOk : Data → Bool)
    (record : Data) (candidate : Candidate) (evidence : List (Nat × Nat))
    (now : Nat) : Data × Option MutationError :=
  match propose_mutation verify serialize sizeOk record candidate evidence now with
  | .ok r => (r, none)
  | .error e => (record, some e)

/-- Modelled from the spec: `create(identity, initial_policy,
initial_version)` (section 6); src/ has no constructor.  Rejects a malformed
identity with `InvalidIdentity` (empty id or `min_retained_count` of 0),
validates the initial policy, and requires the genesis version to carry
index 0. -/
def create (identity : FixedAttributes) (policy : MutableAttributes)
    (v0 : Version) : Except MutationError Data :=
  if identity.id = [] ∨ identity.min_retained_count = 0 then .error .InvalidIdentity
  else
    match newMutableAttributes policy.owner_keys policy.min_weight_for_consensus
        policy.expiry_date policy.data with
    | .error e => .error e
    | .ok a =>
      if v0.index = 0 then .ok ⟨identity, a, [v0]⟩ else .error .NonSequentialIndex

/-- `consecutiveFromB s l` holds when the indices of `l` are exactly
`s, s+1, s+2, ...`: ascending by exactly one, no gaps, no duplicates. -/
def consecutiveFromB : Nat → List Version → Bool
  | _, [] => true
  | s, v :: rest => v.index == s && consecutiveFromB (s + 1) rest

instance {ε α : Type _} [DecidableEq ε] [DecidableEq α] : DecidableEq (Except ε α) := fun x y =>
  match x, y with
  | .ok a, .ok b => if h : a = b then .isTrue (by rw [h]) else .isFalse (by simp [h])
  | .error a, .error b => if h : a = b then .isTrue (by rw [h]) else .isFalse (by simp [h])
  | .ok _, .error _ => .isFalse (by simp)
  | .error _, .ok _ => .isFalse (by simp)

/-! ### Concrete fixtures used by witnesses and counterexamples -/

/-- A concrete injected verifier: a signature is valid iff it equals the
signing key. -/
def verify0 : Nat → List Nat → Nat → Bool := fun k _ s => k == s

/-- A single-owner policy: owner key 1 with weight 1, consensus threshold 0,
expiry 100. -/
def pol0 : MutableAttributes := ⟨[⟨1, 1⟩], 0, 100, []⟩

/-- A two-owner policy: key 1 weight 2, key 2 weight 3, threshold 4. -/
def pol1 : MutableAttributes := ⟨[⟨1, 2⟩, ⟨2, 3⟩], 4, 100, []⟩

/-- Concrete fixed attributes: `max_versions = 3`, `min_retained_count = 1`. -/
def fix0 : FixedAttributes := ⟨1, List.replicate 64 0, 3, 1, []⟩

/-- A three-version ledger with indices 0, 1, 2. -/
def ledger0 : List Version := [⟨0, []⟩, ⟨1, []⟩, ⟨2, []⟩]

/-- A concrete serializer for witnesses: version candidates serialize to
their index, attribute candidates to their threshold. -/
def serialize0 : Candidate → List Nat
  | .newAttributes attrs => [attrs.min_weight_for_consensus]
  | .newVersion v => [v.index]

/-- A size bound that accepts every record. -/
def sizeOkAll : Data → Bool := fun _ => true

/-- A concrete record used by pipeline witnesses: fixed attributes `fix0`,
policy `pol0` (expiry 100), ledger `ledger0`. -/
def rec0 : Data := ⟨fix0, pol0, ledger0⟩

/-! ### Helper lemmas about the Authorization Evaluator -/

theorem validSigners_nil (verify : Nat → List Nat → Nat → Bool)
    (p : MutableAttributes) (c : List Nat) : validSigners verify p c [] = [] := by
  simp [validSigners, hasValidSignature]

theorem authorize_ok_iff (verify : Nat → List Nat → Nat → Bool)
    (p : MutableAttributes) (c : List Nat) (ev : List (Nat × Nat)) :
    authorize verify p c ev = .ok () ↔
      validSigners verify p c ev ≠ [] ∧
      p.min_weight_for_consensus ≤ countedWeight verify p c ev := by
  unfold authorize
  split_ifs with h1 h2
  · subst h1
    simp [validSigners_nil]
  · simp [h2]
  · simp [h2]

theorem authorize_nil (verify : Nat → List Nat → Nat → Bool)
    (p : MutableAttributes) (c : List Nat) :
    authorize verify p c [] = .error .NoSignatures := by
  simp [authorize]

theorem authorize_insufficient (verify : Nat → List Nat → Nat → Bool)
    (p : MutableAttributes) (c : List Nat) (ev : List (Nat × Nat))
    (hne : ev ≠ []) (h : ¬ (authorize verify p c ev = .ok ())) :
    authorize verify p c ev = .error .InsufficientWeight := by
  rw [authorize_ok_iff verify p c ev] at h
  unfold authorize
  split_ifs with h1
  · exact absurd h1 hne
  · rfl

/-! ### Claim C1 -/

/-- C1: `authorize` succeeds iff the summed weight of the distinct owner
keys that contributed at least one valid signature over the candidate bytes
reaches `min_weight_for_consensus` and at least one valid signature was
counted; empty evidence fails with `NoSignatures` for every verifier (no
verification is consulted); non-empty evidence failing the condition fails
with `InsufficientWeight`; and with a threshold of 0, zero valid signers
never authorize. -/
theorem C1_authorize_weighted_consensus (verify : Nat → List Nat → Nat → Bool)
    (p : MutableAttributes) (c : List Nat) (ev : List (Nat × Nat)) :
    (authorize verify p c ev = .ok () ↔
      validSigners verify p c ev ≠ [] ∧
      p.min_weight_for_consensus ≤ countedWeight verify p c ev) ∧
    (∀ verify2 : Nat → List Nat → Nat → Bool,
      authorize verify2 p c [] = .error .NoSignatures) ∧
    (ev ≠ [] → ¬ (authorize verify p c ev = .ok ()) →
      authorize verify p c ev = .error .InsufficientWeight) ∧
    (p.min_weight_for_consensus = 0 → validSigners verify p c ev = [] →
      ¬ (authorize verify p c ev = .ok ())) := by
  refine ⟨authorize_ok_iff verify p c ev, fun verify2 => authorize_nil verify2 p c,
    fun hne h => authorize_insufficient verify p c ev hne h, fun _ hempty h => ?_⟩
  rcases (authorize_ok_iff verify p c ev).mp h with ⟨hs, _⟩
  exact hs hempty

/-- C1 witness at concrete inputs: one valid signature from the sole owner
of a threshold-0 policy authorizes; empty evidence yields `NoSignatures`;
a single non-matching signature yields `InsufficientWeight`. -/
theorem C1_authorize_weighted_consensus_witness :
    authorize verify0 pol0 [] [(1, 1)] = .ok () ∧
    authorize verify0 pol0 [] [] = .error .NoSignatures ∧
    authorize verify0 pol0 [] [(2, 3)] = .error .InsufficientWeight := by
  refine ⟨(C1_authorize_weighted_consensus verify0 pol0 [] [(1, 1)]).1.mpr (by decide),
    (C1_authorize_weighted_consensus verify0 pol0 [] []).2.1 verify0,
    (C1_authorize_weighted_consensus verify0 pol0 [] [(2, 3)]).2.2.1 (by decide) (by decide)⟩

/-! ### Claim C7 -/

/-- C7: Ownership Policy construction fails with `EmptyOwnerSet` exactly on
an empty key set, with `InvalidWeight` when a weight of 0 is supplied, with
`DuplicateKey` when the weights are valid but a key repeats, and succeeds
exactly when the key set is non-empty, every weight is at least 1 and the
keys are distinct. -/
theorem C7_policy_construction (keys : List KeyAndWeight) (minWeight expiry : Nat)
    (payload : List Nat) :
    (newMutableAttributes keys minWeight expiry payload = .error .EmptyOwnerSet ↔
      keys = []) ∧
    (keys ≠ [] → (∃ kw ∈ keys, kw.weight = 0) →
      newMutableAttributes keys minWeight expiry payload = .error .InvalidWeight) ∧
    (keys ≠ [] → (∀ kw ∈ keys, 1 ≤ kw.weight) → ¬ (keys.map KeyAndWeight.key).Nodup →
      newMutableAttributes keys minWeight expiry payload = .error .DuplicateKey) ∧
    (newMutableAttributes keys minWeight expiry payload =
        .ok ⟨keys, minWeight, expiry, payload⟩ ↔
      keys ≠ [] ∧ (∀ kw ∈ keys, 1 ≤ kw.weight) ∧ (keys.map KeyAndWeight.key).Nodup) := by
  have hany : keys.any (fun kw => kw.weight == 0) = true ↔ ∃ kw ∈ keys, kw.weight = 0 := by
    simp [List.any_eq_true]
  have hall : ¬ (keys.any (fun kw => kw.weight == 0) = true) ↔
      ∀ kw ∈ keys, 1 ≤ kw.weight := by
    simp [List.any_eq_true, Nat.one_le_iff_ne_zero]
  unfold newMutableAttributes
  split_ifs with h1 h2 h3
  · exact ⟨by simp [h1], fun hne _ => absurd h1 hne, fun hne _ _ => absurd h1 hne,
      by simp [h1]⟩
  · exact ⟨by simp [h1], fun _ _ => rfl, fun _ hw _ => absurd h2 (hall.mpr hw),
      ⟨fun h => by simp at h, fun hcond => absurd h2 (hall.mpr hcond.2.1)⟩⟩
  · exact ⟨by simp [h1], fun _ hz => absurd (hany.mpr hz) h2, fun _ _ hnd => absurd h3 hnd,
      by simp [h1, h3]; exact hall.mp h2⟩
  · exact ⟨by simp [h1], fun _ hz => absurd (hany.mpr hz) h2, fun _ _ _ => rfl,
      ⟨fun h => by simp at h, fun hcond => absurd hcond.2.2 h3⟩⟩

/-- C7 witness at concrete inputs: a valid two-owner set succeeds; an empty
set, a zero weight, and a repeated key each fail with the matching error. -/
theorem C7_policy_construction_witness :
    newMutableAttributes [⟨1, 2⟩, ⟨2, 3⟩] 4 100 [] =
      .ok ⟨[⟨1, 2⟩, ⟨2, 3⟩], 4, 100, []⟩ ∧
    newMutableAttributes [] 0 100 [] = .error .EmptyOwnerSet ∧
    newMutableAttributes [⟨1, 0⟩] 0 100 [] = .error .InvalidWeight ∧
    newMutableAttributes [⟨1, 1⟩, ⟨1, 2⟩] 0 100 [] = .error .DuplicateKey := by
  refine ⟨(C7_policy_construction [⟨1, 2⟩, ⟨2, 3⟩] 4 100 []).2.2.2.mpr (by decide),
    (C7_policy_construction [] 0 100 []).1.mpr rfl,
    (C7_policy_construction [⟨1, 0⟩] 0 100 []).2.1 (by decide) ⟨⟨1, 0⟩, by decide, rfl⟩,
    (C7_policy_construction [⟨1, 1⟩, ⟨1, 2⟩] 0 100 []).2.2.1 (by decide) (by decide)
      (by decide)⟩

/-! ### Helper lemmas about the Version Ledger -/

theorem getLast?_drop_of_lt {α : Type _} :
    ∀ (l : List α) (e : Nat), e < l.length → (l.drop e).getLast? = l.getLast?
  | [], e, h => by simp at h
  | _ :: rest, 0, _ => rfl
  | _ :: rest, e + 1, h => by
    have hr : e < rest.length := by simpa using h
    have ih := getLast?_drop_of_lt rest e hr
    obtain ⟨b, rest', rfl⟩ : ∃ b rest', rest = b :: rest' := by
      cases rest with
      | nil => simp at hr
      | cons b rest' => exact ⟨b, rest', rfl⟩
    rw [List.drop_succ_cons, ih, List.getLast?_cons_cons]

theorem appendVersion_error_iff (fixed : FixedAttributes) (l : List Version) (v : Version) :
    appendVersion fixed l v = .error .NonSequentialIndex ↔ v.index ≠ expectedIndex l := by
  unfold appendVersion
  split_ifs with h
  · simp [h]
  · simp [h]

theorem appendVersion_ok_eq (fixed : FixedAttributes) (l : List Version) (v : Version)
    (active archived : List Version)
    (h : appendVersion fixed l v = .ok (active, archived)) :
    v.index = expectedIndex l ∧
    active = (l ++ [v]).drop (evictCount fixed (l.length + 1)) ∧
    archived = (l ++ [v]).take (evictCount fixed (l.length + 1)) := by
  unfold appendVersion at h
  split_ifs at h with hidx
  simp only [Except.ok.injEq, Prod.mk.injEq, List.length_append, List.length_cons,
    List.length_nil] at h
  exact ⟨hidx, h.1.symm, h.2.symm⟩

theorem evictCount_lt (fixed : FixedAttributes) (n : Nat)
    (hmr : 1 ≤ fixed.min_retained_count) (hn : 1 ≤ n) : evictCount fixed n < n := by
  unfold evictCount
  omega

theorem expectedIndex_concat (l : List Version) (v : Version) :
    expectedIndex (l ++ [v]) = v.index + 1 := by
  unfold expectedIndex
  rw [List.getLast?_concat]

theorem appendVersion_ok_getLast (fixed : FixedAttributes) (l : List Version) (v : Version)
    (active archived : List Version) (hmr : 1 ≤ fixed.min_retained_count)
    (h : appendVersion fixed l v = .ok (active, archived)) :
    active.getLast? = some v := by
  obtain ⟨-, ha, -⟩ := appendVersion_ok_eq fixed l v active archived h
  have hlt : evictCount fixed (l.length + 1) < (l ++ [v]).length := by
    have := evictCount_lt fixed (l.length + 1) hmr (by omega)
    simpa using this
  rw [ha, getLast?_drop_of_lt _ _ hlt, List.getLast?_concat]

/-! ### Claim C2 -/

/-- C2: for a non-empty ledger (one with a last element), append fails with
`NonSequentialIndex` exactly when the new index is not the last active index
plus one; consequently, after a successful append of index `k` (with
`min_retained_count` at least 1, as the source documents), appending index
`k` again fails with `NonSequentialIndex`. -/
theorem C2_nonsequential_append (fixed : FixedAttributes) (l : List Version)
    (v w : Version) (active archived : List Version) :
    (∀ last, l.getLast? = some last →
      (appendVersion fixed l v = .error .NonSequentialIndex ↔
        v.index ≠ last.index + 1)) ∧
    (1 ≤ fixed.min_retained_count →
      appendVersion fixed l v = .ok (active, archived) → w.index = v.index →
      appendVersion fixed active w = .error .NonSequentialIndex) := by
  constructor
  · intro last hlast
    rw [appendVersion_error_iff]
    unfold expectedIndex
    rw [hlast]
  · intro hmr hok hw
    rw [appendVersion_error_iff]
    unfold expectedIndex
    rw [appendVersion_ok_getLast fixed l v active archived hmr hok, hw]
    show v.index ≠ v.index + 1
    omega

/-- C2 witness: on the ledger with indices 0, 1, 2, appending index 5 fails
with `NonSequentialIndex`; appending index 3 succeeds, and appending index 3
a second time fails with `NonSequentialIndex`. -/
theorem C2_nonsequential_append_witness :
    appendVersion fix0 ledger0 ⟨5, []⟩ = .error .NonSequentialIndex ∧
    appendVersion fix0 ledger0 ⟨3, []⟩ =
      .ok ([⟨1, []⟩, ⟨2, []⟩, ⟨3, []⟩], [⟨0, []⟩]) ∧
    appendVersion fix0 [⟨1, []⟩, ⟨2, []⟩, ⟨3, []⟩] ⟨3, []⟩ =
      .error .NonSequentialIndex := by
  have hok : appendVersion fix0 ledger0 ⟨3, []⟩ =
      .ok ([⟨1, []⟩, ⟨2, []⟩, ⟨3, []⟩], [⟨0, []⟩]) := by decide
  refine ⟨((C2_nonsequential_append fix0 ledger0 ⟨5, []⟩ ⟨5, []⟩ [] []).1 ⟨2, []⟩
      rfl).mpr (by decide), hok,
    (C2_nonsequential_append fix0 ledger0 ⟨3, []⟩ ⟨3, []⟩ [⟨1, []⟩, ⟨2, []⟩, ⟨3, []⟩]
      [⟨0, []⟩]).2 (by decide) hok rfl⟩

/-! ### Claim C3 -/

/-- C3: a successful append first adds the new version and then evicts the
oldest active versions (a prefix, i.e. the lowest indices first) down to
`max_versions`, clamped so the final active count never falls below
`min_retained_count`; the evicted versions are exactly the computed prefix,
handed over once (archive and active partition the appended ledger), and
eviction is the pure function `evictCount` of the ledger length and the two
caps. -/
theorem C3_retention_eviction (fixed : FixedAttributes) (l : List Version) (v : Version)
    (active archived : List Version)
    (h : appendVersion fixed l v = .ok (active, archived)) :
    active = (l ++ [v]).drop (evictCount fixed (l.length + 1)) ∧
    archived = (l ++ [v]).take (evictCount fixed (l.length + 1)) ∧
    archived ++ active = l ++ [v] ∧
    active.length = (l.length + 1) - evictCount fixed (l.length + 1) ∧
    (l.length + 1 ≤ fixed.max_versions → archived = []) ∧
    (fixed.max_versions < l.length + 1 →
      active.length = max fixed.max_versions (min (l.length + 1) fixed.min_retained_count)) ∧
    (fixed.min_retained_count ≤ l.length + 1 →
      fixed.min_retained_count ≤ active.length) := by
  obtain ⟨hidx, ha, har⟩ := appendVersion_ok_eq fixed l v active archived h
  have hlen : (l ++ [v]).length = l.length + 1 := by simp
  refine ⟨ha, har, ?_, ?_, ?_, ?_, ?_⟩
  · rw [ha, har, List.take_append_drop]
  · rw [ha, List.length_drop, hlen]
  · intro hle
    rw [har]
    have h0 : evictCount fixed (l.length + 1) = 0 := by unfold evictCount; omega
    rw [h0, List.take_zero]
  · intro hgt
    rw [ha, List.length_drop, hlen]
    unfold evictCount
    omega
  · intro hge
    rw [ha, List.length_drop, hlen]
    unfold evictCount
    omega

/-- C3 witness, the spec's scenario: ledger with indices 0, 1, 2 and caps
`max_versions = 3`, `min_retained_count = 1`; appending index 3 archives
exactly index 0 and leaves indices 1, 2, 3 active, and archive plus active
partition the appended ledger. -/
theorem C3_retention_eviction_witness :
    appendVersion fix0 ledger0 ⟨3, []⟩ =
      .ok ([⟨1, []⟩, ⟨2, []⟩, ⟨3, []⟩], [⟨0, []⟩]) ∧
    [(⟨0, []⟩ : Version)] ++ [⟨1, []⟩, ⟨2, []⟩, ⟨3, []⟩] = ledger0 ++ [⟨3, []⟩] ∧
    ([⟨1, []⟩, ⟨2, []⟩, ⟨3, []⟩] : List Version).length =
      max fix0.max_versions (min (ledger0.length + 1) fix0.min_retained_count) := by
  have hok : appendVersion fix0 ledger0 ⟨3, []⟩ =
      .ok ([⟨1, []⟩, ⟨2, []⟩, ⟨3, []⟩], [⟨0, []⟩]) := by decide
  have hthm := C3_retention_eviction fix0 ledger0 ⟨3, []⟩
    [⟨1, []⟩, ⟨2, []⟩, ⟨3, []⟩] [⟨0, []⟩] hok
  exact ⟨hok, hthm.2.2.1, hthm.2.2.2.2.2.1 (by decide)⟩

/-! ### Consecutive-index lemmas and pipeline inversions -/

theorem consecutiveFromB_getLast :
    ∀ (l : List Version) (s : Nat), consecutiveFromB s l = true →
      ∀ last, l.getLast? = some last → last.index + 1 = s + l.length
  | [], _, _, last, h => by simp at h
  | v :: rest, s, hc, last, h => by
    rw [consecutiveFromB, Bool.and_eq_true, beq_iff_eq] at hc
    obtain ⟨hv, hrest⟩ := hc
    cases rest with
    | nil =>
      have hlv : last = v := by simpa using h.symm
      subst hlv
      simp [hv]
    | cons b rest' =>
      rw [List.getLast?_cons_cons] at h
      have ih := consecutiveFromB_getLast (b :: rest') (s + 1) hrest last h
      simp only [List.length_cons] at ih ⊢
      omega

theorem consecutiveFromB_concat :
    ∀ (l : List Version) (s : Nat) (v : Version), consecutiveFromB s l = true →
      v.index = s + l.length → consecutiveFromB s (l ++ [v]) = true
  | [], s, v, _, hidx => by simp [consecutiveFromB, hidx]
  | w :: rest, s, v, hc, hidx => by
    rw [consecutiveFromB, Bool.and_eq_true, beq_iff_eq] at hc
    obtain ⟨hw, hrest⟩ := hc
    have ih := consecutiveFromB_concat rest (s + 1) v hrest
      (by simp only [List.length_cons] at hidx ⊢; omega)
    rw [List.cons_append, consecutiveFromB, Bool.and_eq_true, beq_iff_eq]
    exact ⟨hw, ih⟩

theorem consecutiveFromB_drop :
    ∀ (l : List Version) (s e : Nat), consecutiveFromB s l = true →
      consecutiveFromB (s + e) (l.drop e) = true
  | l, s, 0, h => by simpa using h
  | [], _, _ + 1, _ => by simp [consecutiveFromB]
  | v :: rest, s, e + 1, h => by
    rw [consecutiveFromB, Bool.and_eq_true] at h
    have ih := consecutiveFromB_drop rest (s + 1) e h.2
    rw [List.drop_succ_cons]
    have hse : s + (e + 1) = s + 1 + e := by omega
    rw [hse]
    exact ih

theorem appendVersion_consecutive (fixed : FixedAttributes) (l : List Version) (v : Version)
    (active archived : List Version) (s : Nat) (hne : l ≠ [])
    (hc : consecutiveFromB s l = true) (hmr : 1 ≤ fixed.min_retained_count)
    (h : appendVersion fixed l v = .ok (active, archived)) :
    active ≠ [] ∧ consecutiveFromB (s + evictCount fixed (l.length + 1)) active = true := by
  obtain ⟨hidx, ha, -⟩ := appendVersion_ok_eq fixed l v active archived h
  obtain ⟨last, hlast⟩ : ∃ last, l.getLast? = some last := by
    cases l with
    | nil => exact absurd rfl hne
    | cons a l' => exact ⟨(a :: l').getLast (by simp), List.getLast?_eq_getLast _ _⟩
  have hlastidx := consecutiveFromB_getLast l s hc last hlast
  have hexp : expectedIndex l = last.index + 1 := by
    unfold expectedIndex
    rw [hlast]
  have hvidx : v.index = s + l.length := by
    rw [hexp] at hidx
    omega
  have hcons := consecutiveFromB_concat l s v hc hvidx
  have hlt : evictCount fixed (l.length + 1) < (l ++ [v]).length := by
    have := evictCount_lt fixed (l.length + 1) hmr (by omega)
    simpa using this
  constructor
  · rw [ha]
    intro hnil
    have hlen0 := congrArg List.length hnil
    rw [List.length_drop] at hlen0
    simp only [List.length_nil] at hlen0
    omega
  · rw [ha]
    exact consecutiveFromB_drop (l ++ [v]) s _ hcons

theorem propose_mutation_ok_inv (verify : Nat → List Nat → Nat → Bool)
    (serialize : Candidate → List Nat) (sizeOk : Data → Bool) (record : Data)
    (candidate : Candidate) (evidence : List (Nat × Nat)) (now : Nat) (r' : Data)
    (h : propose_mutation verify serialize sizeOk record candidate evidence now = .ok r') :
    now < record.mutable_attributes.expiry_date ∧
    authorize verify record.mutable_attributes (serialize candidate) evidence = .ok () ∧
    applyCandidate sizeOk record candidate = .ok r' := by
  unfold propose_mutation at h
  split_ifs at h with hexp
  cases hA : authorize verify record.mutable_attributes (serialize candidate) evidence with
  | error e => rw [hA] at h; simp at h
  | ok u =>
    rw [hA] at h
    dsimp only at h
    cases u
    exact ⟨by omega, rfl, h⟩

theorem applyCandidate_newVersion_inv (sizeOk : Data → Bool) (record : Data) (v : Version)
    (r' : Data) (h : applyCandidate sizeOk record (.newVersion v) = .ok r') :
    ∃ active archived,
      appendVersion record.fixed_attributes record.versions v = .ok (active, archived) ∧
      r' = { record with versions := active } := by
  unfold applyCandidate at h
  dsimp only at h
  cases hA : appendVersion record.fixed_attributes record.versions v with
  | error e => rw [hA] at h; simp at h
  | ok pr =>
    obtain ⟨active, archived⟩ := pr
    rw [hA] at h
    dsimp only at h
    split_ifs at h with hs
    exact ⟨active, archived, rfl, by injection h with h'; exact h'.symm⟩

theorem applyCandidate_newAttributes_inv (sizeOk : Data → Bool) (record : Data)
    (attrs : MutableAttributes) (r' : Data)
    (h : applyCandidate sizeOk record (.newAttributes attrs) = .ok r') :
    r'.versions = record.versions := by
  unfold applyCandidate at h
  dsimp only at h
  cases hA : newMutableAttributes attrs.owner_keys attrs.min_weight_for_consensus
      attrs.expiry_date attrs.data with
  | error e => rw [hA] at h; simp at h
  | ok a =>
    rw [hA] at h
    dsimp only at h
    split_ifs at h with hs
    injection h with h'
    rw [← h']

theorem create_ok_inv (identity : FixedAttributes) (policy : MutableAttributes)
    (v0 : Version) (r : Data) (h : create identity policy v0 = .ok r) :
    r.versions = [v0] ∧ v0.index = 0 := by
  unfold create at h
  split_ifs at h with hid hv0
  · cases hA : newMutableAttributes policy.owner_keys policy.min_weight_for_consensus
        policy.expiry_date policy.data with
    | error e => rw [hA] at h; simp at h
    | ok a =>
      rw [hA] at h
      dsimp only at h
      injection h with h'
      exact ⟨by rw [← h'], hv0⟩
  · cases hA : newMutableAttributes policy.owner_keys policy.min_weight_for_consensus
        policy.expiry_date policy.data with
    | error e => rw [hA] at h; simp at h
    | ok a =>
      rw [hA] at h
      dsimp only at h
      simp at h

/-! ### Claim C4 -/

/-- C4 counterexample: a Record reachable through `create` and three
accepted mutations has the active ledger with indices 1, 2, 3 — its indices
do not begin at 0, because the accepted append of index 3 evicted index 0
under `max_versions = 3`.  This refutes the claim that every reachable
Record's ledger indices begin at 0. -/
theorem C4_ledger_invariant_counterexample :
    create fix0 pol0 ⟨0, []⟩ = .ok ⟨fix0, pol0, [⟨0, []⟩]⟩ ∧
    propose_mutation verify0 serialize0 sizeOkAll ⟨fix0, pol0, [⟨0, []⟩]⟩
      (.newVersion ⟨1, []⟩) [(1, 1)] 0 = .ok ⟨fix0, pol0, [⟨0, []⟩, ⟨1, []⟩]⟩ ∧
    propose_mutation verify0 serialize0 sizeOkAll ⟨fix0, pol0, [⟨0, []⟩, ⟨1, []⟩]⟩
      (.newVersion ⟨2, []⟩) [(1, 1)] 0 =
      .ok ⟨fix0, pol0, [⟨0, []⟩, ⟨1, []⟩, ⟨2, []⟩]⟩ ∧
    propose_mutation verify0 serialize0 sizeOkAll ⟨fix0, pol0, [⟨0, []⟩, ⟨1, []⟩, ⟨2, []⟩]⟩
      (.newVersion ⟨3, []⟩) [(1, 1)] 0 =
      .ok ⟨fix0, pol0, [⟨1, []⟩, ⟨2, []⟩, ⟨3, []⟩]⟩ ∧
    (∀ ver ∈ (⟨fix0, pol0, [⟨1, []⟩, ⟨2, []⟩, ⟨3, []⟩]⟩ : Data).versions,
      ver.index ≠ 0) := by
  decide

/-- C4 (amended): the Version Ledger of every Record reachable through
`create` and accepted mutations is non-empty and its indices form a
consecutive run — ascending, increasing by exactly 1, no gaps or
duplicates; the run starts at 0 at creation, but after an accepted append
that evicts old versions it may start at a later index (the claim as
stated, that indices always begin at 0, fails — see the counterexample). -/
theorem C4_ledger_invariant (verify : Nat → List Nat → Nat → Bool)
    (serialize : Candidate → List Nat) (sizeOk : Data → Bool)
    (identity : FixedAttributes) (policy : MutableAttributes) (v0 : Version)
    (record r r' : Data) (candidate : Candidate) (evidence : List (Nat × Nat))
    (now s : Nat) :
    (create identity policy v0 = .ok r →
      r.versions ≠ [] ∧ consecutiveFromB 0 r.versions = true) ∧
    (1 ≤ record.fixed_attributes.min_retained_count → record.versions ≠ [] →
      consecutiveFromB s record.versions = true →
      propose_mutation verify serialize sizeOk record candidate evidence now = .ok r' →
      r'.versions ≠ [] ∧ ∃ t, consecutiveFromB t r'.versions = true) := by
  constructor
  · intro h
    obtain ⟨hv, hidx⟩ := create_ok_inv identity policy v0 r h
    rw [hv]
    exact ⟨by simp, by simp [consecutiveFromB, hidx]⟩
  · intro hmr hne hc hok
    obtain ⟨-, -, happ⟩ :=
      propose_mutation_ok_inv verify serialize sizeOk record candidate evidence now r' hok
    cases candidate with
    | newAttributes attrs =>
      have hv := applyCandidate_newAttributes_inv sizeOk record attrs r' happ
      rw [hv]
      exact ⟨hne, s, hc⟩
    | newVersion v =>
      obtain ⟨active, archived, hA, hr⟩ :=
        applyCandidate_newVersion_inv sizeOk record v r' happ
      have hres := appendVersion_consecutive record.fixed_attributes record.versions v
        active archived s hne hc hmr hA
      rw [hr]
      exact ⟨hres.1, _, hres.2⟩

/-- C4 witness: the amended invariant applied to the concrete chain — the
record created with genesis index 0 has a consecutive ledger starting at 0,
and the record after the evicting append still has a non-empty consecutive
ledger. -/
theorem C4_ledger_invariant_witness :
    ((⟨fix0, pol0, [⟨0, []⟩]⟩ : Data).versions ≠ [] ∧
      consecutiveFromB 0 (⟨fix0, pol0, [⟨0, []⟩]⟩ : Data).versions = true) ∧
    ((⟨fix0, pol0, [⟨1, []⟩, ⟨2, []⟩, ⟨3, []⟩]⟩ : Data).versions ≠ [] ∧
      ∃ t, consecutiveFromB t
        (⟨fix0, pol0, [⟨1, []⟩, ⟨2, []⟩, ⟨3, []⟩]⟩ : Data).versions = true) := by
  constructor
  · exact (C4_ledger_invariant verify0 serialize0 sizeOkAll fix0 pol0 ⟨0, []⟩
      rec0 ⟨fix0, pol0, [⟨0, []⟩]⟩ rec0 (.newVersion ⟨1, []⟩) [(1, 1)] 0 0).1 (by decide)
  · exact (C4_ledger_invariant verify0 serialize0 sizeOkAll fix0 pol0 ⟨0, []⟩
      ⟨fix0, pol0, [⟨0, []⟩, ⟨1, []⟩, ⟨2, []⟩]⟩ ⟨fix0, pol0, [⟨0, []⟩]⟩
      ⟨fix0, pol0, [⟨1, []⟩, ⟨2, []⟩, ⟨3, []⟩]⟩ (.newVersion ⟨3, []⟩) [(1, 1)] 0 0).2
      (by decide) (by decide) (by decide) (by decide)

/-! ### Claim C5 -/

/-- C5: no core operation mutates an existing Record in place:
`propose_mutation` is a pure function over immutable values, and the
caller's state transition `stepRecord` shows the frame property — on
success the returned new snapshot replaces the record, and on every error
the prior Record snapshot is kept exactly as it was (hence still valid). -/
theorem C5_no_inplace_mutation (verify : Nat → List Nat → Nat → Bool)
    (serialize : Candidate → List Nat) (sizeOk : Data → Bool) (record : Data)
    (candidate : Candidate) (evidence : List (Nat × Nat)) (now : Nat) :
    (∀ e, propose_mutation verify serialize sizeOk record candidate evidence now =
        .error e →
      stepRecord verify serialize sizeOk record candidate evidence now =
        (record, some e)) ∧
    (∀ r', propose_mutation verify serialize sizeOk record candidate evidence now =
        .ok r' →
      stepRecord verify serialize sizeOk record candidate evidence now = (r', none)) := by
  constructor <;>
  · intro x h
    unfold stepRecord
    rw [h]

/-- C5 witness: on the concrete record, an expired proposal errors and the
state transition keeps the prior snapshot unchanged, while an accepted
proposal installs the new snapshot. -/
theorem C5_no_inplace_mutation_witness :
    stepRecord verify0 serialize0 sizeOkAll rec0 (.newVersion ⟨3, []⟩) [(1, 1)] 200 =
      (rec0, some .RecordExpired) ∧
    stepRecord verify0 serialize0 sizeOkAll rec0 (.newVersion ⟨3, []⟩) [(1, 1)] 0 =
      (⟨fix0, pol0, [⟨1, []⟩, ⟨2, []⟩, ⟨3, []⟩]⟩, none) := by
  refine ⟨(C5_no_inplace_mutation verify0 serialize0 sizeOkAll rec0
      (.newVersion ⟨3, []⟩) [(1, 1)] 200).1 .RecordExpired (by decide),
    (C5_no_inplace_mutation verify0 serialize0 sizeOkAll rec0
      (.newVersion ⟨3, []⟩) [(1, 1)] 0).2 ⟨fix0, pol0, [⟨1, []⟩, ⟨2, []⟩, ⟨3, []⟩]⟩
      (by decide)⟩

/-! ### Claim C6 -/

theorem propose_expired (verify : Nat → List Nat → Nat → Bool)
    (serialize : Candidate → List Nat) (sizeOk : Data → Bool) (record : Data)
    (candidate : Candidate) (evidence : List (Nat × Nat)) (now : Nat)
    (h : record.mutable_attributes.expiry_date ≤ now) :
    propose_mutation verify serialize sizeOk record candidate evidence now =
      .error .RecordExpired := by
  unfold propose_mutation
  rw [if_pos h]

theorem propose_auth_first_rejects (verify : Nat → List Nat → Nat → Bool)
    (serialize : Candidate → List Nat) (sizeOk : Data → Bool) (record : Data)
    (candidate : Candidate) (evidence : List (Nat × Nat)) (now : Nat)
    (h : record.mutable_attributes.expiry_date ≤ now) :
    ∃ e, propose_mutation_auth_first verify serialize sizeOk record candidate
      evidence now = .error e := by
  unfold propose_mutation_auth_first
  cases hA : authorize verify record.mutable_attributes (serialize candidate) evidence with
  | error e => exact ⟨e, rfl⟩
  | ok u => exact ⟨.RecordExpired, by dsimp only; rw [if_pos h]⟩

/-- C6 counterexample: on the concrete expired record with empty evidence,
the expiry-first pipeline reports `RecordExpired` while the
authorization-first pipeline reports `NoSignatures`: both reject, but the
observable results are not the same, refuting the claim's equal-result
part. -/
theorem C6_expired_rejected_counterexample :
    propose_mutation verify0 serialize0 sizeOkAll rec0 (.newVersion ⟨3, []⟩) [] 200 =
      .error .RecordExpired ∧
    propose_mutation_auth_first verify0 serialize0 sizeOkAll rec0
      (.newVersion ⟨3, []⟩) [] 200 = .error .NoSignatures ∧
    propose_mutation verify0 serialize0 sizeOkAll rec0 (.newVersion ⟨3, []⟩) [] 200 ≠
      propose_mutation_auth_first verify0 serialize0 sizeOkAll rec0
        (.newVersion ⟨3, []⟩) [] 200 := by
  decide

/-- C6 (amended): if `now` is at or past the record's expiry time, the
pipeline fails with `RecordExpired` independently of the evidence; running
the expiry check after authorization instead still always rejects an
expired record (both orders reject), though the error kind may then differ
from `RecordExpired`. -/
theorem C6_expired_rejected (verify : Nat → List Nat → Nat → Bool)
    (serialize : Candidate → List Nat) (sizeOk : Data → Bool) (record : Data)
    (candidate : Candidate) (evidence : List (Nat × Nat)) (now : Nat)
    (h : record.mutable_attributes.expiry_date ≤ now) :
    propose_mutation verify serialize sizeOk record candidate evidence now =
      .error .RecordExpired ∧
    ∃ e, propose_mutation_auth_first verify serialize sizeOk record candidate
      evidence now = .error e :=
  ⟨propose_expired verify serialize sizeOk record candidate evidence now h,
    propose_auth_first_rejects verify serialize sizeOk record candidate evidence now h⟩

/-- C6 witness: the expired record rejects with `RecordExpired` even when
valid authorizing signatures are supplied, and the authorization-first
order also rejects. -/
theorem C6_expired_rejected_witness :
    propose_mutation verify0 serialize0 sizeOkAll rec0 (.newVersion ⟨3, []⟩)
      [(1, 1)] 150 = .error .RecordExpired ∧
    ∃ e, propose_mutation_auth_first verify0 serialize0 sizeOkAll rec0
      (.newVersion ⟨3, []⟩) [(1, 1)] 150 = .error e :=
  C6_expired_rejected verify0 serialize0 sizeOkAll rec0 (.newVersion ⟨3, []⟩)
    [(1, 1)] 150 (by decide)

/-! ### Claim C9 -/

/-- C9: signature evidence is never part of the Record's durable state: the
`Data` type holds only the fixed attributes, mutable attributes and
versions (no signature field exists in the source struct), and accordingly
the successful result of `propose_mutation` does not depend on which
signature evidence authorized it. -/
theorem C9_signatures_not_persisted (verify : Nat → List Nat → Nat → Bool)
    (serialize : Candidate → List Nat) (sizeOk : Data → Bool) (record : Data)
    (candidate : Candidate) (ev1 ev2 : List (Nat × Nat)) (now : Nat) (r1 r2 : Data)
    (h1 : propose_mutation verify serialize sizeOk record candidate ev1 now = .ok r1)
    (h2 : propose_mutation verify serialize sizeOk record candidate ev2 now = .ok r2) :
    r1 = r2 := by
  have e1 := (propose_mutation_ok_inv verify serialize sizeOk record candidate ev1
    now r1 h1).2.2
  have e2 := (propose_mutation_ok_inv verify serialize sizeOk record candidate ev2
    now r2 h2).2.2
  rw [e1] at e2
  simpa using e2

/-- C9 witness: two different evidence sets that both authorize the same
candidate produce identical new Records. -/
theorem C9_signatures_not_persisted_witness :
    propose_mutation verify0 serialize0 sizeOkAll rec0 (.newVersion ⟨3, []⟩)
      [(1, 1)] 0 = .ok ⟨fix0, pol0, [⟨1, []⟩, ⟨2, []⟩, ⟨3, []⟩]⟩ ∧
    propose_mutation verify0 serialize0 sizeOkAll rec0 (.newVersion ⟨3, []⟩)
      [(2, 9), (1, 1)] 0 = .ok ⟨fix0, pol0, [⟨1, []⟩, ⟨2, []⟩, ⟨3, []⟩]⟩ ∧
    (⟨fix0, pol0, [⟨1, []⟩, ⟨2, []⟩, ⟨3, []⟩]⟩ : Data) =
      ⟨fix0, pol0, [⟨1, []⟩, ⟨2, []⟩, ⟨3, []⟩]⟩ := by
  refine ⟨by decide, by decide,
    C9_signatures_not_persisted verify0 serialize0 sizeOkAll rec0 (.newVersion ⟨3, []⟩)
      [(1, 1)] [(2, 9), (1, 1)] 0 _ _ (by decide) (by decide)⟩

/-! ### Claim C10 -/

/-- C10: under the Rust field widths recorded in `FixedAttributes.WF`,
`min_retained_count` (a `u8`) never exceeds 255, so the retention floor
`min n min_retained_count` applied during archiving is bounded by 255,
while `max_versions` (a `u64`) can be as large as `2 ^ 64 - 1`. -/
theorem C10_retained_count_u8_bound :
    (∀ f : FixedAttributes, f.WF → f.min_retained_count ≤ 255) ∧
    (∀ (f : FixedAttributes) (n : Nat), f.WF → min n f.min_retained_count ≤ 255) ∧
    (∃ f : FixedAttributes, f.WF ∧ f.max_versions = 2 ^ 64 - 1 ∧
      255 < f.max_versions) := by
  exact ⟨fun f hf => by unfold FixedAttributes.WF at hf; omega,
    fun f n hf => by unfold FixedAttributes.WF at hf; omega,
    ⟨⟨0, List.replicate 64 0, 2 ^ 64 - 1, 1, []⟩, by decide, rfl, by norm_num⟩⟩

/-- C10 witness: the concrete fixed attributes are well-formed and their
retention count is within the `u8` bound. -/
theorem C10_retained_count_u8_bound_witness :
    fix0.WF ∧ fix0.min_retained_count ≤ 255 :=
  ⟨by decide, C10_retained_count_u8_bound.1 fix0 (by decide)⟩

/-! ### Claim C8 -/

theorem hasValidSignature_perm (verify : Nat → List Nat → Nat → Bool) (c : List Nat)
    (ev1 ev2 : List (Nat × Nat)) (hp : ev1.Perm ev2) (kw : KeyAndWeight) :
    hasValidSignature verify c ev1 kw = hasValidSignature verify c ev2 kw := by
  unfold hasValidSignature
  rw [Bool.eq_iff_iff, List.any_eq_true, List.any_eq_true]
  constructor
  · rintro ⟨es, hmem, hes⟩
    exact ⟨es, hp.mem_iff.mp hmem, hes⟩
  · rintro ⟨es, hmem, hes⟩
    exact ⟨es, hp.mem_iff.mpr hmem, hes⟩

theorem hasValidSignature_dup (verify : Nat → List Nat → Nat → Bool) (c : List Nat)
    (e : Nat × Nat) (ev : List (Nat × Nat)) (he : e ∈ ev) (kw : KeyAndWeight) :
    hasValidSignature verify c (e :: ev) kw = hasValidSignature verify c ev kw := by
  unfold hasValidSignature
  rw [Bool.eq_iff_iff, List.any_eq_true, List.any_eq_true]
  constructor
  · rintro ⟨es, hmem, hes⟩
    rcases List.mem_cons.mp hmem with rfl | hmem'
    · exact ⟨es, he, hes⟩
    · exact ⟨es, hmem', hes⟩
  · rintro ⟨es, hmem, hes⟩
    exact ⟨es, List.mem_cons_of_mem _ hmem, hes⟩

theorem validSigners_congr (verify : Nat → List Nat → Nat → Bool)
    (p : MutableAttributes) (c : List Nat) (ev1 ev2 : List (Nat × Nat))
    (h : ∀ kw ∈ p.owner_keys,
      hasValidSignature verify c ev1 kw = hasValidSignature verify c ev2 kw) :
    validSigners verify p c ev1 = validSigners verify p c ev2 := by
  unfold validSigners
  exact List.filter_congr h

theorem authorize_congr_nonempty (verify : Nat → List Nat → Nat → Bool)
    (p : MutableAttributes) (c : List Nat) (ev1 ev2 : List (Nat × Nat))
    (h1 : ev1 ≠ []) (h2 : ev2 ≠ [])
    (hs : validSigners verify p c ev1 = validSigners verify p c ev2) :
    authorize verify p c ev1 = authorize verify p c ev2 := by
  unfold authorize
  rw [if_neg h1, if_neg h2]
  unfold countedWeight
  rw [hs]

/-- C8 counterexample: the empty evidence set and a non-empty evidence set
holding one bad signature have the same (empty) set of distinct valid
signer keys, yet `authorize` answers `NoSignatures` for one and
`InsufficientWeight` for the other — refuting the claim that equal
valid-signer sets always yield the same result. -/
theorem C8_evidence_set_invariance_counterexample :
    validSigners verify0 pol0 [] [] = validSigners verify0 pol0 [] [(2, 3)] ∧
    authorize verify0 pol0 [] [] = .error .NoSignatures ∧
    authorize verify0 pol0 [] [(2, 3)] = .error .InsufficientWeight ∧
    authorize verify0 pol0 [] [] ≠ authorize verify0 pol0 [] [(2, 3)] := by
  decide

/-- C8 (amended): the result of `authorize` is invariant under permutation
of the evidence and under repetition of an entry already present, and any
two NON-EMPTY evidence sets for which each owner key has a valid signature
in one iff in the other yield the same result; the unrestricted claim fails
only at the empty/non-empty boundary (see the counterexample), where
`NoSignatures` is distinguished from `InsufficientWeight`. -/
theorem C8_evidence_set_invariance (verify : Nat → List Nat → Nat → Bool)
    (p : MutableAttributes) (c : List Nat) (e : Nat × Nat)
    (ev1 ev2 : List (Nat × Nat)) :
    (ev1.Perm ev2 → authorize verify p c ev1 = authorize verify p c ev2) ∧
    (e ∈ ev1 → authorize verify p c (e :: ev1) = authorize verify p c ev1) ∧
    (ev1 ≠ [] → ev2 ≠ [] →
      (∀ kw ∈ p.owner_keys,
        hasValidSignature verify c ev1 kw = hasValidSignature verify c ev2 kw) →
      authorize verify p c ev1 = authorize verify p c ev2) := by
  refine ⟨?_, ?_, ?_⟩
  · intro hp
    by_cases hemp : ev1 = []
    · subst hemp
      rw [hp.symm.eq_nil]
    · have hemp2 : ev2 ≠ [] := by
        intro h2
        rw [h2] at hp
        exact hemp hp.eq_nil
      exact authorize_congr_nonempty verify p c ev1 ev2 hemp hemp2
        (validSigners_congr verify p c ev1 ev2
          (fun kw _ => hasValidSignature_perm verify c ev1 ev2 hp kw))
  · intro he
    have hne1 : (e :: ev1) ≠ [] := by simp
    have hne2 : ev1 ≠ [] := by
      intro h
      rw [h] at he
      simp at he
    exact authorize_congr_nonempty verify p c (e :: ev1) ev1 hne1 hne2
      (validSigners_congr verify p c (e :: ev1) ev1
        (fun kw _ => hasValidSignature_dup verify c e ev1 he kw))
  · intro hne1 hne2 h
    exact authorize_congr_nonempty verify p c ev1 ev2 hne1 hne2
      (validSigners_congr verify p c ev1 ev2 h)

/-- C8 witness: on the two-owner policy, swapping the two evidence entries
and duplicating an entry both leave the authorization result unchanged. -/
theorem C8_evidence_set_invariance_witness :
    authorize verify0 pol1 [] [(1, 1), (2, 2)] =
      authorize verify0 pol1 [] [(2, 2), (1, 1)] ∧
    authorize verify0 pol1 [] [(1, 1), (1, 1), (2, 2)] =
      authorize verify0 pol1 [] [(1, 1), (2, 2)] := by
  refine ⟨(C8_evidence_set_invariance verify0 pol1 [] (1, 1) [(1, 1), (2, 2)]
      [(2, 2), (1, 1)]).1 (by decide),
    (C8_evidence_set_invariance verify0 pol1 [] (1, 1) [(1, 1), (2, 2)]
      [(2, 2), (1, 1)]).2.1 (by decide)⟩

end StructuredData
